import Mathlib

/-!
# Verification of the mail-API form-processing workflow

Shallow embedding of `src/mail/mail.service.ts` (the upload-then-persist
workflow: `uploadMultipleFiles`, `procesarRegistroEmpresa`,
`procesarSolicitudKyc`) and `src/email/email.service.ts`
(`enviarEmailBienvenida`), together with proofs of the specified
properties (atomic persistence, complete record, consent coercion,
storage-key uniqueness, sanitization idempotence, error surfacing,
notification isolation, empty-group omission, whitelist
noninterference, missing-file-array totality).

Modelling conventions:
* External collaborators (Supabase storage, the database table, the
  SendGrid send call) are pure oracle functions supplied in an `Env`.
* `Promise.all` over the file groups and over the files of one group is
  modelled sequentially in key order; the first rejection in that order
  is the one that surfaces (a determinization of the race).
* `Date.now()` is modelled by the single submission timestamp
  `Env.now : Nat`.
* JavaScript `undefined` for a missing request field is modelled by
  `Option.none`; interpolating a possibly-undefined value into a
  template literal is modelled by `jsStr` (JS renders `"undefined"`).
* A thrown `InternalServerErrorException` (an HTTP 500) is modelled by
  `Except.error` carrying a `ServerError` with the exception message.
-/

namespace MailApi

/-- One uploaded file of a multipart request (`Express.Multer.File`):
original filename, raw bytes, declared MIME type. -/
structure FileItem where
  originalname : String
  buffer : List Nat
  mimetype : String
deriving DecidableEq

/-- Result of one `storage.from(bucket).upload(path, ...)` call, as the
Supabase client returns it: an object with an `error` field and a `data`
field holding the stored path.  Both are optional, mirroring the code's
own defensive treatment of the result object. -/
structure StorageResult where
  error : Option String
  data : Option String
deriving DecidableEq

/-- The Supabase storage client: `upload(bucket, path, bytes, contentType)`
and `getPublicUrl(bucket, path)`. -/
structure StorageClient where
  upload : String → String → List Nat → String → StorageResult
  getPublicUrl : String → String → String

/-- A thrown `InternalServerErrorException` (surfaced as HTTP 500). -/
structure ServerError where
  message : String
deriving DecidableEq

/-- Result of a `.from(table).insert([row]).select()` call: an `error`
field and the `data` array of saved rows. -/
structure InsertOutcome where
  error : Option String
  data : List (List (String × String))
deriving DecidableEq

/-- The message object handed to `sgMail.send` (`toAddr`/`fromAddr`
model its `to`/`from` properties, keywords in Lean). -/
structure EmailMsg where
  toAddr : Option String
  fromAddr : String
  subject : String
  html : String
deriving DecidableEq

/-- Text fields of one request body (`datosEmpresa` / `datosSolicitud`):
an association list of field name to string value; absent fields are
`none` under lookup, like `undefined` property access in JS. -/
abbrev Datos : Type := List (String × String)

/-- The file groups of one request: `Object.keys(files)` order is the
list order; a group's array may be absent (`none`), mirroring the
`!fileArray` guard in the source. -/
abbrev FileGroups : Type := List (String × Option (List FileItem))

/-- JS template-literal rendering of a possibly-undefined string. -/
def jsStr : Option String → String
  | some s => s
  | none => "undefined"

/-- The character class `[a-zA-Z0-9.\-_]` of the sanitization regex in
`uploadMultipleFiles`. -/
def isAllowedChar (c : Char) : Bool :=
  ('a' ≤ c && c ≤ 'z') || ('A' ≤ c && c ≤ 'Z') || ('0' ≤ c && c ≤ '9')
    || c = '.' || c = '-' || c = '_'

/-- Sanitization `file.originalname.replace(/[^a-zA-Z0-9.\-_]/g, ...)`:
every character outside the class is replaced by an underscore. -/
def sanitizeFileName (s : String) : String :=
  ⟨s.data.map (fun c => if isAllowedChar c then c else '_')⟩

/-- The storage key built per file:
`public/${fieldName}/${Date.now()}-${index}-${sanitizedFileName}`
(`toString` of a `Nat` is `Nat.repr`). -/
def mkFilePath (fieldName : String) (ts index : Nat) (sanitizedFileName : String) : String :=
  "public/" ++ fieldName ++ "/" ++ Nat.repr ts ++ "-" ++ Nat.repr index
    ++ "-" ++ sanitizedFileName

/-- The list of storage results produced by
`fileArray.map((file, index) => ...upload(filePath, file.buffer, {contentType}))`. -/
def groupUploadResults (client : StorageClient) (now : Nat) (bucketName fieldName : String)
    (fileArray : List FileItem) : List StorageResult :=
  fileArray.enum.map (fun p =>
    client.upload bucketName
      (mkFilePath fieldName now p.1 (sanitizeFileName p.2.originalname))
      p.2.buffer p.2.mimetype)

/-- Model of `uploadMultipleFiles(fieldName, fileArray, bucketName)`: returns `[]`
for a missing or empty array; uploads every file; throws one
`InternalServerErrorException` naming the field if any result carries an
error; otherwise resolves public URLs, skipping results without a `data`
path (`.map(...).filter(url => url !== null)`). -/
def uploadMultipleFiles (client : StorageClient) (now : Nat) (fieldName : String)
    (fileArray : Option (List FileItem)) (bucketName : String) :
    Except ServerError (List String) :=
  match fileArray with
  | none => .ok []
  | some files =>
    if files.length = 0 then .ok []
    else
      let uploadResults := groupUploadResults client now bucketName fieldName files
      let uploadErrors := uploadResults.filter (fun r => r.error.isSome)
      if uploadErrors.length > 0 then
        .error ⟨"Fallo al subir archivos para: " ++ fieldName⟩
      else
        .ok ((uploadResults.map
          (fun r => r.data.map (fun p => client.getPublicUrl bucketName p))).filterMap id)

/-- The `Promise.all(uploadTasks)` loop of both processors: one task per
group in `Object.keys(files)` order, each adding `{fieldName}_urls` to
`fileUrls` when its URL list is non-empty; a rejection aborts the whole
submission. -/
def runUploads (client : StorageClient) (now : Nat) (bucketName : String) :
    FileGroups → Except ServerError (List (String × List String))
  | [] => .ok []
  | (fieldName, arr) :: rest =>
    match uploadMultipleFiles client now fieldName arr bucketName with
    | .error e => .error e
    | .ok urls =>
      match runUploads client now bucketName rest with
      | .error e => .error e
      | .ok m => .ok (if urls.length > 0 then (fieldName ++ "_urls", urls) :: m else m)

/-- Consent coercion, the strict equality of the submitted
`fondos_licitos` field with the string "on" in both processors. -/
def coerceConsent (v : Option String) : Bool :=
  v == some "on"

/-- The `dataToInsert` row of `procesarRegistroEmpresa`: the explicitly
enumerated text columns, the coerced consent boolean, and the spread
`...fileUrls` entries. -/
structure EmpresaRow where
  nombre_empresa : Option String
  cuit_empresa : Option String
  direccion_sede : Option String
  email_empresa : Option String
  telefono_empresa : Option String
  sitio_web : Option String
  fondos_licitos : Bool
  fileUrls : List (String × List String)
deriving DecidableEq

/-- Row assembly of `procesarRegistroEmpresa` (lines 65–74). -/
def mkEmpresaRow (datosEmpresa : Datos) (fileUrls : List (String × List String)) :
    EmpresaRow where
  nombre_empresa := datosEmpresa.lookup "nombre_empresa"
  cuit_empresa := datosEmpresa.lookup "cuit_empresa"
  direccion_sede := datosEmpresa.lookup "direccion_sede"
  email_empresa := datosEmpresa.lookup "email_empresa"
  telefono_empresa := datosEmpresa.lookup "telefono_empresa"
  sitio_web := datosEmpresa.lookup "sitio_web"
  fondos_licitos := coerceConsent (datosEmpresa.lookup "fondos_licitos")
  fileUrls := fileUrls

/-- The `dataToInsert` row of `procesarSolicitudKyc`. -/
structure KycRow where
  nombre : Option String
  apellido : Option String
  numero_documento : Option String
  fecha_nacimiento : Option String
  nacionalidad : Option String
  direccion : Option String
  email : Option String
  telefono : Option String
  fuente_ingresos : Option String
  limite_operaciones : Option String
  justificacion_servicios : Option String
  fondos_licitos : Bool
  pep_status : Option String
  fileUrls : List (String × List String)
deriving DecidableEq

/-- Row assembly of `procesarSolicitudKyc` (lines 143–158). -/
def mkKycRow (datosSolicitud : Datos) (fileUrls : List (String × List String)) :
    KycRow where
  nombre := datosSolicitud.lookup "nombre"
  apellido := datosSolicitud.lookup "apellido"
  numero_documento := datosSolicitud.lookup "numero_documento"
  fecha_nacimiento := datosSolicitud.lookup "fecha_nacimiento"
  nacionalidad := datosSolicitud.lookup "nacionalidad"
  direccion := datosSolicitud.lookup "direccion"
  email := datosSolicitud.lookup "email"
  telefono := datosSolicitud.lookup "telefono"
  fuente_ingresos := datosSolicitud.lookup "fuente_ingresos"
  limite_operaciones := datosSolicitud.lookup "limite_operaciones"
  justificacion_servicios := datosSolicitud.lookup "justificacion_servicios"
  fondos_licitos := coerceConsent (datosSolicitud.lookup "fondos_licitos")
  pep_status := datosSolicitud.lookup "pep_status"
  fileUrls := fileUrls

/-- The success body `{message, data}` returned by a processor; `data`
is `savedData[0]` (`none` when the insert returned an empty array). -/
structure Payload where
  message : String
  data : Option (List (String × String))
deriving DecidableEq

/-- Everything observable about one processor run: the returned value or
thrown exception, the rows passed to `.insert`, and the email messages
handed to the notification client. -/
structure Outcome (ρ : Type) where
  result : Except ServerError Payload
  insertCalls : List ρ
  emailCalls : List EmailMsg

/-- The pure oracles standing for the external collaborators; the
SendGrid send oracle is passed separately so that claims can vary it. -/
structure Env where
  storage : StorageClient
  now : Nat
  insertEmpresa : EmpresaRow → InsertOutcome
  insertKyc : KycRow → InsertOutcome

/-- The HTML body produced by `getPlantillaBienvenida(name, link)`
(whitespace normalized; the interpolation structure is what matters). -/
def getPlantillaBienvenida (name : Option String) (link : String) : String :=
  "<div><h2>Hola " ++ jsStr name
    ++ ",</h2><p>Hemos recibido tu solicitud en Blockey correctamente.</p><a href=\""
    ++ link ++ "\">Continuar con el Siguiente Paso</a></div>"

/-- Model of `enviarEmailBienvenida(to, name, linkSiguientePaso)` from
`email.service.ts`: builds the SendGrid message and awaits the send; a
send failure is caught and only logged, never rethrown, so the function
always resolves.  The attempted message is returned for observability. -/
def enviarEmailBienvenida (sgSend : EmailMsg → Except String Unit)
    (dest name : Option String) (linkSiguientePaso : String) : EmailMsg × Unit :=
  let msg : EmailMsg :=
    { toAddr := dest
      fromAddr := "tu-email-verificado@blockey.tech"
      subject := "Gracias por tu solicitud - Siguientes Pasos en Blockey"
      html := getPlantillaBienvenida name linkSiguientePaso }
  match sgSend msg with
  | .ok _ => (msg, ())
  | .error _ => (msg, ())

/-- Bucket of the company (KYB) form. -/
def empresaBucket : String := "registros-empresas"

/-- Bucket of the individual (KYC) form. -/
def kycBucket : String := "kyc-documentos-usuarios"

/-- The generic message every error of `procesarSolicitudKyc` is
replaced with by its catch-all handler. -/
def kycGenericError : ServerError :=
  ⟨"Ocurrió un error inesperado al procesar la solicitud."⟩

/-- Model of `procesarRegistroEmpresa(datosEmpresa, files)`: upload all groups,
assemble the row, insert into `registros_market`, send the welcome email
best-effort, return `{message, data}`.  The catch block rethrows an
`InternalServerErrorException` unchanged (every error reaching it here
is one). -/
def procesarRegistroEmpresa (env : Env) (sgSend : EmailMsg → Except String Unit)
    (datosEmpresa : Datos) (files : FileGroups) : Outcome EmpresaRow :=
  match runUploads env.storage env.now empresaBucket files with
  | .error e => { result := .error e, insertCalls := [], emailCalls := [] }
  | .ok fileUrls =>
    let dataToInsert := mkEmpresaRow datosEmpresa fileUrls
    let ins := env.insertEmpresa dataToInsert
    if ins.error.isSome then
      { result := .error ⟨"No se pudo guardar el registro en la base de datos."⟩
        insertCalls := [dataToInsert]
        emailCalls := [] }
    else
      let sent := enviarEmailBienvenida sgSend (datosEmpresa.lookup "email_empresa")
        (datosEmpresa.lookup "nombre_empresa")
        "https://market.blockey.tech/siguiente-paso-empresas"
      { result := .ok
          { message := "Registro de empresa procesado con éxito!"
            data := ins.data.head? }
        insertCalls := [dataToInsert]
        emailCalls := [sent.1] }

/-- Model of `procesarSolicitudKyc(datosSolicitud, files)`: like the company
processor but inserting into `solicitudes_token`; its catch block
replaces every error (upload failure included) with the generic
`kycGenericError` message. -/
def procesarSolicitudKyc (env : Env) (sgSend : EmailMsg → Except String Unit)
    (datosSolicitud : Datos) (files : FileGroups) : Outcome KycRow :=
  match runUploads env.storage env.now kycBucket files with
  | .error _ => { result := .error kycGenericError, insertCalls := [], emailCalls := [] }
  | .ok fileUrls =>
    let dataToInsert := mkKycRow datosSolicitud fileUrls
    let ins := env.insertKyc dataToInsert
    if ins.error.isSome then
      { result := .error kycGenericError
        insertCalls := [dataToInsert]
        emailCalls := [] }
    else
      let nombreCompleto :=
        jsStr (datosSolicitud.lookup "nombre") ++ " "
          ++ jsStr (datosSolicitud.lookup "apellido")
      let sent := enviarEmailBienvenida sgSend (datosSolicitud.lookup "email")
        (some nombreCompleto) "https://market.blockey.tech/siguiente-paso-usuarios"
      { result := .ok
          { message := "Solicitud de onboarding recibida y guardada con éxito!"
            data := ins.data.head? }
        insertCalls := [dataToInsert]
        emailCalls := [sent.1] }

/-- The text-field whitelist of `procesarRegistroEmpresa`. -/
def empresaWhitelist : List String :=
  ["nombre_empresa", "cuit_empresa", "direccion_sede", "email_empresa",
   "telefono_empresa", "sitio_web", "fondos_licitos"]

/-- The text-field whitelist of `procesarSolicitudKyc`. -/
def kycWhitelist : List String :=
  ["nombre", "apellido", "numero_documento", "fecha_nacimiento", "nacionalidad",
   "direccion", "email", "telefono", "fuente_ingresos", "limite_operaciones",
   "justificacion_servicios", "fondos_licitos", "pep_status"]

/-! ### Concrete fixtures used by the witness theorems -/

/-- A storage oracle on which every upload succeeds and echoes its key. -/
def okStorage : StorageClient where
  upload := fun _ path _ _ => { error := none, data := some path }
  getPublicUrl := fun bucket path => "https://cdn.example/" ++ bucket ++ "/" ++ path

/-- A storage oracle on which every upload fails with `disk full`. -/
def failStorage : StorageClient where
  upload := fun _ _ _ _ => { error := some "disk full", data := none }
  getPublicUrl := fun bucket path => "https://cdn.example/" ++ bucket ++ "/" ++ path

/-- An environment in which storage and both table inserts succeed. -/
def envOk : Env where
  storage := okStorage
  now := 33
  insertEmpresa := fun _ => { error := none, data := [[("id", "1")]] }
  insertKyc := fun _ => { error := none, data := [[("id", "2")]] }

/-- An environment in which every storage upload fails. -/
def envFail : Env where
  storage := failStorage
  now := 33
  insertEmpresa := fun _ => { error := none, data := [[("id", "1")]] }
  insertKyc := fun _ => { error := none, data := [[("id", "2")]] }

/-- A send oracle that succeeds. -/
def sgOk : EmailMsg → Except String Unit := fun _ => .ok ()

/-- A send oracle that fails (simulated notification-provider outage). -/
def sgFail : EmailMsg → Except String Unit := fun _ => .error "sendgrid down"

/-- A sample uploaded file. -/
def file0 : FileItem where
  originalname := "Doc Final.pdf"
  buffer := [1, 2, 3]
  mimetype := "application/pdf"

/-- A second sample uploaded file. -/
def file1 : FileItem where
  originalname := "estatuto (v2).pdf"
  buffer := [4, 5]
  mimetype := "application/pdf"

/-- Sample company-form text fields. -/
def datos0 : Datos :=
  [("nombre_empresa", "Acme"), ("email_empresa", "acme@example.com"),
   ("fondos_licitos", "on"), ("nombre", "Ada"), ("apellido", "Lovelace"),
   ("email", "ada@example.com")]

/-- Sample fields agreeing with `datos0` on the company whitelist but
differing outside it: different `nombre`/`apellido` (KYC-only fields)
and an injected field literally named like a URL column. -/
def datos2 : Datos :=
  [("nombre_empresa", "Acme"), ("email_empresa", "acme@example.com"),
   ("fondos_licitos", "on"), ("nombre", "Grace"), ("apellido", "Hopper"),
   ("email", "ada@example.com"), ("estatuto_social_urls", "evil")]

/-- Sample fields agreeing with `datos0` on the KYC whitelist but
differing outside it: different `nombre_empresa`/`email_empresa`
(company-only fields) and an extra unknown field. -/
def datos3 : Datos :=
  [("nombre_empresa", "Otra"), ("email_empresa", "otra@example.com"),
   ("fondos_licitos", "on"), ("nombre", "Ada"), ("apellido", "Lovelace"),
   ("email", "ada@example.com"), ("campo_extra", "x")]

/-- Sample file groups: two non-empty groups, one empty, one absent. -/
def files0 : FileGroups :=
  [("estatuto_social", some [file0]), ("dni_representantes", some [file0, file1]),
   ("organigrama", some []), ("poder_notarial", none)]

/-! ### Auxiliary definitions used by the proofs -/

instance {ε α : Type} [DecidableEq ε] [DecidableEq α] : DecidableEq (Except ε α) := fun a b =>
  match a, b with
  | .ok x, .ok y =>
    if h : x = y then .isTrue (by rw [h]) else .isFalse (by intro hc; cases hc; exact h rfl)
  | .ok _, .error _ => .isFalse (by intro hc; cases hc)
  | .error _, .ok _ => .isFalse (by intro hc; cases hc)
  | .error x, .error y =>
    if h : x = y then .isTrue (by rw [h]) else .isFalse (by intro hc; cases hc; exact h rfl)

/-- Reference base-10 numeral, used to reason about `Nat.repr`. -/
def natDigits (n : Nat) : List Char :=
  if n < 10 then [Nat.digitChar n]
  else natDigits (n / 10) ++ [Nat.digitChar (n % 10)]
decreasing_by exact Nat.div_lt_self (by omega) (by omega)

/-- Base-10 decoder, a left inverse of `natDigits`. -/
def decodeDigits (l : List Char) : Nat :=
  l.foldl (fun a c => 10 * a + (c.toNat - 48)) 0

/-- The public-URL list one group contributes when none of its uploads
reported an error (the value of the `.map(...).filter(...)` pipeline at
the end of `uploadMultipleFiles`). -/
def groupUrls (client : StorageClient) (now : Nat) (bucketName fieldName : String)
    (fileArray : List FileItem) : List String :=
  ((groupUploadResults client now bucketName fieldName fileArray).map
    (fun r => r.data.map (fun p => client.getPublicUrl bucketName p))).filterMap id

/-- The `fileUrls` mapping both processors build when every upload
succeeds: one `{group}_urls` entry per group whose URL list is
non-empty, in key order. -/
def expectedUrlMap (client : StorageClient) (now : Nat) (bucketName : String) :
    FileGroups → List (String × List String)
  | [] => []
  | (fieldName, arr) :: rest =>
    let urls := groupUrls client now bucketName fieldName (arr.getD [])
    if urls.length > 0 then
      (fieldName ++ "_urls", urls) :: expectedUrlMap client now bucketName rest
    else expectedUrlMap client now bucketName rest

end MailApi

/-! ## Helper lemmas -/

namespace MailApi

theorem string_ext {s t : String} (h : s.data = t.data) : s = t := by
  cases s; cases t; exact congrArg String.mk h

theorem toDigitsCore_append (b : Nat) :
    ∀ (f n : Nat) (ds : List Char),
      Nat.toDigitsCore b f n ds = Nat.toDigitsCore b f n [] ++ ds := by
  intro f
  induction f with
  | zero => intro n ds; simp [Nat.toDigitsCore]
  | succ f ih =>
    intro n ds
    simp only [Nat.toDigitsCore]
    by_cases h : n / b = 0
    · simp [h]
    · simp only [h, if_false]
      rw [ih (n / b) [Nat.digitChar (n % b)], ih (n / b) (Nat.digitChar (n % b) :: ds)]
      simp

theorem toDigitsCore_eq_natDigits :
    ∀ (f n : Nat), n < f → Nat.toDigitsCore 10 f n [] = natDigits n := by
  intro f
  induction f with
  | zero => intro n h; omega
  | succ f ih =>
    intro n h
    simp only [Nat.toDigitsCore]
    by_cases h10 : n < 10
    · have hd : n / 10 = 0 := Nat.div_eq_of_lt h10
      rw [natDigits]
      simp [hd, Nat.mod_eq_of_lt h10, h10]
    · have hne : ¬ n / 10 = 0 := by
        intro h0
        exact h10 ((Nat.div_eq_zero_iff (by omega)).mp h0)
      have hlt : n / 10 < f := by
        have := Nat.div_lt_self (by omega : 0 < n) (by omega : 1 < 10)
        omega
      rw [if_neg hne]
      rw [toDigitsCore_append, ih (n / 10) hlt]
      conv_rhs => rw [natDigits]
      simp [h10]

theorem repr_data_eq_natDigits (n : Nat) : (Nat.repr n).data = natDigits n := by
  show (Nat.toDigits 10 n).asString.data = natDigits n
  rw [show Nat.toDigits 10 n = Nat.toDigitsCore 10 (n + 1) n [] from rfl]
  rw [toDigitsCore_eq_natDigits (n + 1) n (by omega)]
  rfl

theorem digitChar_isDigit : ∀ m, m < 10 → (Nat.digitChar m).isDigit = true := by decide

theorem natDigits_isDigit : ∀ (n : Nat), ∀ c ∈ natDigits n, c.isDigit = true := by
  intro n
  induction n using Nat.strong_induction_on with
  | _ n ih =>
    intro c hc
    rw [natDigits] at hc
    by_cases h10 : n < 10
    · simp [h10] at hc
      exact hc ▸ digitChar_isDigit n h10
    · simp [h10] at hc
      rcases hc with hc | hc
      · exact ih (n / 10) (Nat.div_lt_self (by omega) (by omega)) c hc
      · exact hc ▸ digitChar_isDigit (n % 10) (Nat.mod_lt n (by omega))

theorem digitChar_decode : ∀ m, m < 10 → (Nat.digitChar m).toNat - 48 = m := by decide

theorem decodeDigits_concat (l : List Char) (c : Char) :
    decodeDigits (l ++ [c]) = 10 * decodeDigits l + (c.toNat - 48) := by
  simp [decodeDigits, List.foldl_append]

theorem decodeDigits_natDigits : ∀ n, decodeDigits (natDigits n) = n := by
  intro n
  induction n using Nat.strong_induction_on with
  | _ n ih =>
    rw [natDigits]
    by_cases h10 : n < 10
    · simp [h10, decodeDigits, digitChar_decode n h10]
    · simp only [h10, if_false]
      rw [decodeDigits_concat, ih (n / 10) (Nat.div_lt_self (by omega) (by omega)),
        digitChar_decode (n % 10) (Nat.mod_lt n (by omega))]
      omega

theorem natRepr_inj {m n : Nat} (h : Nat.repr m = Nat.repr n) : m = n := by
  have hd : natDigits m = natDigits n := by
    rw [← repr_data_eq_natDigits, ← repr_data_eq_natDigits, h]
  rw [← decodeDigits_natDigits m, ← decodeDigits_natDigits n, hd]

theorem repr_no_slash (n : Nat) : '/' ∉ (Nat.repr n).data := by
  rw [repr_data_eq_natDigits]
  intro hm
  have := natDigits_isDigit n '/' hm
  simp [Char.isDigit] at this

theorem split_at_first_sep (sep : Char) :
    ∀ (a1 a2 r1 r2 : List Char), sep ∉ a1 → sep ∉ a2 →
      a1 ++ sep :: r1 = a2 ++ sep :: r2 → a1 = a2 ∧ r1 = r2 := by
  intro a1
  induction a1 with
  | nil =>
    intro a2 r1 r2 _ h2 h
    cases a2 with
    | nil => simpa using h
    | cons b bs =>
      simp only [List.nil_append, List.cons_append, List.cons.injEq] at h
      exact absurd (h.1 ▸ List.mem_cons_self b bs) h2
  | cons a as ih =>
    intro a2 r1 r2 h1 h2 h
    cases a2 with
    | nil =>
      simp only [List.nil_append, List.cons_append, List.cons.injEq] at h
      exact absurd (h.1 ▸ List.mem_cons_self a as) h1
    | cons b bs =>
      simp only [List.cons_append, List.cons.injEq] at h
      obtain ⟨hab, ht⟩ := h
      have hr := ih bs r1 r2 (fun hm => h1 (List.mem_cons_of_mem _ hm))
        (fun hm => h2 (List.mem_cons_of_mem _ hm)) ht
      exact ⟨by rw [hab, hr.1], hr.2⟩

theorem split_at_last_sep (sep : Char) (a1 a2 r1 r2 : List Char)
    (hr1 : sep ∉ r1) (hr2 : sep ∉ r2)
    (h : a1 ++ sep :: r1 = a2 ++ sep :: r2) : a1 = a2 ∧ r1 = r2 := by
  have h' : r1.reverse ++ sep :: a1.reverse = r2.reverse ++ sep :: a2.reverse := by
    have := congrArg List.reverse h
    simpa [List.reverse_append] using this
  have hs := split_at_first_sep sep r1.reverse r2.reverse a1.reverse a2.reverse
    (by simpa using hr1) (by simpa using hr2) h'
  constructor
  · have := hs.2; simpa using congrArg List.reverse this
  · have := hs.1; simpa using congrArg List.reverse this

theorem mkFilePath_inj {g1 g2 : String} {t1 t2 i1 i2 : Nat} {n1 n2 : String}
    (hn1 : '/' ∉ n1.data) (hn2 : '/' ∉ n2.data)
    (h : mkFilePath g1 t1 i1 n1 = mkFilePath g2 t2 i2 n2) :
    g1 = g2 ∧ t1 = t2 ∧ i1 = i2 ∧ n1 = n2 := by
  have hd := congrArg String.data h
  simp only [mkFilePath, String.data_append, List.append_assoc,
    List.singleton_append] at hd
  have hd2 := List.append_cancel_left hd
  have tail_no_slash : ∀ (t i : Nat) (nd : List Char), '/' ∉ nd →
      '/' ∉ (Nat.repr t).data ++ '-' :: ((Nat.repr i).data ++ '-' :: nd) := by
    intro t i nd hnd hm
    rcases List.mem_append.mp hm with hm | hm
    · exact repr_no_slash t hm
    · rcases List.mem_cons.mp hm with hm | hm
      · exact absurd hm.symm (by decide)
      · rcases List.mem_append.mp hm with hm | hm
        · exact repr_no_slash i hm
        · rcases List.mem_cons.mp hm with hm | hm
          · exact absurd hm.symm (by decide)
          · exact hnd hm
  have hsplit := split_at_last_sep '/' g1.data g2.data _ _
    (tail_no_slash t1 i1 n1.data hn1) (tail_no_slash t2 i2 n2.data hn2) hd2
  have hg : g1 = g2 := string_ext hsplit.1
  have hts := split_at_first_sep '-' (Nat.repr t1).data (Nat.repr t2).data _ _
    (fun hm => (by decide : ¬ ('-' : Char).isDigit = true)
      (natDigits_isDigit t1 '-' (repr_data_eq_natDigits t1 ▸ hm)))
    (fun hm => (by decide : ¬ ('-' : Char).isDigit = true)
      (natDigits_isDigit t2 '-' (repr_data_eq_natDigits t2 ▸ hm)))
    hsplit.2
  have ht : t1 = t2 := natRepr_inj (string_ext hts.1)
  have his := split_at_first_sep '-' (Nat.repr i1).data (Nat.repr i2).data _ _
    (fun hm => (by decide : ¬ ('-' : Char).isDigit = true)
      (natDigits_isDigit i1 '-' (repr_data_eq_natDigits i1 ▸ hm)))
    (fun hm => (by decide : ¬ ('-' : Char).isDigit = true)
      (natDigits_isDigit i2 '-' (repr_data_eq_natDigits i2 ▸ hm)))
    hts.2
  exact ⟨hg, ht, natRepr_inj (string_ext his.1), string_ext his.2⟩

theorem sanitizeFileName_allowed (s : String) :
    ∀ c ∈ (sanitizeFileName s).data, isAllowedChar c = true := by
  intro c hc
  simp only [sanitizeFileName, List.mem_map] at hc
  obtain ⟨a, _, ha⟩ := hc
  by_cases h : isAllowedChar a
  · rw [← ha]; simp [h]
  · rw [← ha, if_neg h]; decide

theorem sanitizeFileName_no_slash (s : String) : '/' ∉ (sanitizeFileName s).data := by
  intro hm
  exact absurd (sanitizeFileName_allowed s '/' hm) (by decide)

end MailApi

namespace MailApi

theorem string_append_cancel_right {g1 g2 s : String} (h : g1 ++ s = g2 ++ s) :
    g1 = g2 := by
  have hd := congrArg String.data h
  simp only [String.data_append] at hd
  exact string_ext (List.append_cancel_right hd)

theorem groupUploadResults_length (client : StorageClient) (now : Nat)
    (bucketName fieldName : String) (l : List FileItem) :
    (groupUploadResults client now bucketName fieldName l).length = l.length := by
  simp [groupUploadResults]

theorem groupUploadResults_nil (client : StorageClient) (now : Nat)
    (bucketName fieldName : String) :
    groupUploadResults client now bucketName fieldName [] = [] := rfl

theorem uploadMultipleFiles_error (client : StorageClient) (now : Nat)
    (fieldName : String) (l : List FileItem) (bucketName : String)
    (hfail : ∃ r ∈ groupUploadResults client now bucketName fieldName l, r.error.isSome) :
    uploadMultipleFiles client now fieldName (some l) bucketName =
      .error ⟨"Fallo al subir archivos para: " ++ fieldName⟩ := by
  obtain ⟨r, hr, he⟩ := hfail
  have hl : ¬ l.length = 0 := by
    intro h0
    rw [List.length_eq_zero] at h0
    subst h0
    simp [groupUploadResults] at hr
  have hmemf : r ∈ (groupUploadResults client now bucketName fieldName l).filter
      (fun r => r.error.isSome) := List.mem_filter.mpr ⟨hr, he⟩
  have hpos : ((groupUploadResults client now bucketName fieldName l).filter
      (fun r => r.error.isSome)).length > 0 :=
    List.length_pos.mpr (List.ne_nil_of_mem hmemf)
  simp only [uploadMultipleFiles]
  rw [if_neg hl, if_pos hpos]

theorem uploadMultipleFiles_ok (client : StorageClient) (now : Nat)
    (fieldName : String) (l : List FileItem) (bucketName : String)
    (hok : ∀ r ∈ groupUploadResults client now bucketName fieldName l, r.error = none) :
    uploadMultipleFiles client now fieldName (some l) bucketName =
      .ok (groupUrls client now bucketName fieldName l) := by
  by_cases hl : l.length = 0
  · rw [List.length_eq_zero] at hl
    subst hl
    simp [uploadMultipleFiles, groupUrls, groupUploadResults]
  · have hfilter : (groupUploadResults client now bucketName fieldName l).filter
        (fun r => r.error.isSome) = [] :=
      List.filter_eq_nil_iff.mpr (fun r hr => by simp [hok r hr])
    simp only [uploadMultipleFiles, groupUrls]
    rw [if_neg hl, hfilter]
    simp

theorem filterMap_id_length_of_isSome {β : Type} (l : List (Option β))
    (h : ∀ a ∈ l, a.isSome) : (l.filterMap id).length = l.length := by
  induction l with
  | nil => rfl
  | cons a as ih =>
    cases a with
    | none => exact absurd (h none (List.mem_cons_self _ _)) (by simp)
    | some b =>
      simp only [List.filterMap_cons, id, List.length_cons]
      rw [ih (fun a ha => h a (List.mem_cons_of_mem _ ha))]

theorem groupUrls_length (client : StorageClient) (now : Nat)
    (bucketName fieldName : String) (l : List FileItem)
    (hdata : ∀ r ∈ groupUploadResults client now bucketName fieldName l, r.data.isSome) :
    (groupUrls client now bucketName fieldName l).length = l.length := by
  rw [groupUrls, filterMap_id_length_of_isSome, List.length_map,
    groupUploadResults_length]
  intro a ha
  rw [List.mem_map] at ha
  obtain ⟨r, hr, hra⟩ := ha
  rw [← hra]
  simpa using hdata r hr

theorem runUploads_ok (client : StorageClient) (now : Nat) (bucketName : String)
    (files : FileGroups)
    (hok : ∀ p ∈ files,
      ∀ r ∈ groupUploadResults client now bucketName p.1 (p.2.getD []), r.error = none) :
    runUploads client now bucketName files =
      .ok (expectedUrlMap client now bucketName files) := by
  induction files with
  | nil => rfl
  | cons q rest ih =>
    obtain ⟨g, arr⟩ := q
    have hhd := hok (g, arr) (List.mem_cons_self _ _)
    have hrest := ih (fun p hp => hok p (List.mem_cons_of_mem _ hp))
    cases arr with
    | none =>
      simp only [runUploads, uploadMultipleFiles, hrest, expectedUrlMap]
      simp [groupUrls, groupUploadResults]
    | some l =>
      have hup := uploadMultipleFiles_ok client now g l bucketName hhd
      simp only [runUploads, hup, hrest, expectedUrlMap]
      simp

theorem runUploads_error_shape (client : StorageClient) (now : Nat) (bucketName : String)
    (files : FileGroups)
    (hfail : ∃ p ∈ files,
      ∃ r ∈ groupUploadResults client now bucketName p.1 (p.2.getD []), r.error.isSome) :
    ∃ g, (∃ p ∈ files, p.1 = g ∧
        ∃ r ∈ groupUploadResults client now bucketName g (p.2.getD []), r.error.isSome) ∧
      runUploads client now bucketName files =
        .error ⟨"Fallo al subir archivos para: " ++ g⟩ := by
  induction files with
  | nil =>
    obtain ⟨p, hp, _⟩ := hfail
    exact absurd hp (List.not_mem_nil p)
  | cons q rest ih =>
    obtain ⟨g0, arr⟩ := q
    by_cases hq : ∃ r ∈ groupUploadResults client now bucketName g0 (arr.getD []),
        r.error.isSome
    · cases arr with
      | none => simp [groupUploadResults] at hq
      | some l =>
        refine ⟨g0, ⟨(g0, some l), List.mem_cons_self _ _, rfl, hq⟩, ?_⟩
        have hup := uploadMultipleFiles_error client now g0 l bucketName hq
        simp only [runUploads, hup]
    · have hrestfail : ∃ p ∈ rest,
          ∃ r ∈ groupUploadResults client now bucketName p.1 (p.2.getD []),
            r.error.isSome := by
        obtain ⟨p, hp, hf⟩ := hfail
        rcases List.mem_cons.mp hp with hp | hp
        · subst hp; exact absurd hf hq
        · exact ⟨p, hp, hf⟩
      obtain ⟨g, ⟨p, hp, hpg, hpf⟩, herr⟩ := ih hrestfail
      refine ⟨g, ⟨p, List.mem_cons_of_mem _ hp, hpg, hpf⟩, ?_⟩
      have hhdok : ∀ r ∈ groupUploadResults client now bucketName g0 (arr.getD []),
          r.error = none := by
        intro r hr
        rcases hre : r.error with _ | e
        · rfl
        · exact absurd ⟨r, hr, by simp [hre]⟩ hq
      cases arr with
      | none => simp only [runUploads, uploadMultipleFiles, herr]
      | some l =>
        have hup := uploadMultipleFiles_ok client now g0 l bucketName hhdok
        simp only [runUploads, hup, herr]

end MailApi

namespace MailApi

theorem expectedUrlMap_mem (client : StorageClient) (now : Nat) (bucketName : String) :
    ∀ (files : FileGroups), ∀ e ∈ expectedUrlMap client now bucketName files,
      ∃ p ∈ files, e.1 = p.1 ++ "_urls" ∧
        e.2 = groupUrls client now bucketName p.1 (p.2.getD []) ∧
        (groupUrls client now bucketName p.1 (p.2.getD [])).length > 0 := by
  intro files
  induction files with
  | nil => intro e he; exact absurd he (List.not_mem_nil e)
  | cons q rest ih =>
    obtain ⟨g, arr⟩ := q
    intro e he
    simp only [expectedUrlMap] at he
    by_cases hlen : (groupUrls client now bucketName g (arr.getD [])).length > 0
    · rw [if_pos hlen] at he
      rcases List.mem_cons.mp he with he | he
      · exact ⟨(g, arr), List.mem_cons_self _ _, by rw [he], by rw [he], hlen⟩
      · obtain ⟨p, hp, hrest⟩ := ih e he
        exact ⟨p, List.mem_cons_of_mem _ hp, hrest⟩
    · rw [if_neg hlen] at he
      obtain ⟨p, hp, hrest⟩ := ih e he
      exact ⟨p, List.mem_cons_of_mem _ hp, hrest⟩

theorem expectedUrlMap_keys_nodup (client : StorageClient) (now : Nat) (bucketName : String)
    (files : FileGroups) (hnodup : (files.map Prod.fst).Nodup) :
    ((expectedUrlMap client now bucketName files).map Prod.fst).Nodup := by
  induction files with
  | nil => simp [expectedUrlMap]
  | cons q rest ih =>
    obtain ⟨g, arr⟩ := q
    rw [List.map_cons, List.nodup_cons] at hnodup
    simp only [expectedUrlMap]
    by_cases hlen : (groupUrls client now bucketName g (arr.getD [])).length > 0
    · rw [if_pos hlen]
      rw [List.map_cons, List.nodup_cons]
      refine ⟨?_, ih hnodup.2⟩
      intro hmem
      rw [List.mem_map] at hmem
      obtain ⟨e, he, hek⟩ := hmem
      obtain ⟨p, hp, hkey, _, _⟩ := expectedUrlMap_mem client now bucketName rest e he
      have hpg : p.1 = g := string_append_cancel_right (by rw [← hkey, hek])
      have hmem2 : p.1 ∈ rest.map Prod.fst := List.mem_map_of_mem Prod.fst hp
      rw [hpg] at hmem2
      exact hnodup.1 hmem2
    · rw [if_neg hlen]
      exact ih hnodup.2

theorem expectedUrlMap_mem_of (client : StorageClient) (now : Nat) (bucketName : String)
    (files : FileGroups) (g : String) (l : List FileItem)
    (hp : (g, some l) ∈ files)
    (hlen : (groupUrls client now bucketName g l).length > 0) :
    (g ++ "_urls", groupUrls client now bucketName g l) ∈
      expectedUrlMap client now bucketName files := by
  induction files with
  | nil => exact absurd hp (List.not_mem_nil _)
  | cons q rest ih =>
    obtain ⟨g0, arr⟩ := q
    simp only [expectedUrlMap]
    rcases List.mem_cons.mp hp with hq | hq
    · have hg : g0 = g := by cases hq; rfl
      have harr : arr = some l := by cases hq; rfl
      subst hg; subst harr
      rw [if_pos (by simpa using hlen)]
      exact List.mem_cons_self _ _
    · by_cases h0 : (groupUrls client now bucketName g0 (arr.getD [])).length > 0
      · rw [if_pos h0]
        exact List.mem_cons_of_mem _ (ih hq)
      · rw [if_neg h0]
        exact ih hq

theorem countP_key_eq_one (m : List (String × List String)) (k : String)
    (hnodup : (m.map Prod.fst).Nodup) (hmem : k ∈ m.map Prod.fst) :
    m.countP (fun e => e.1 == k) = 1 := by
  have h1 : (m.map Prod.fst).countP (fun s => s == k) = m.countP (fun e => e.1 == k) :=
    List.countP_map _ _ _
  rw [← h1]
  exact List.count_eq_one_of_mem hnodup hmem

theorem nodup_fst_eq {α β : Type} : ∀ (l : List (α × β)) (g : α) (a b : β),
    (l.map Prod.fst).Nodup → (g, a) ∈ l → (g, b) ∈ l → a = b := by
  intro l
  induction l with
  | nil => intro g a b _ ha _; exact absurd ha (List.not_mem_nil _)
  | cons q rest ih =>
    intro g a b hnd ha hb
    rw [List.map_cons, List.nodup_cons] at hnd
    rcases List.mem_cons.mp ha with ha | ha <;> rcases List.mem_cons.mp hb with hb | hb
    · have hab := ha.trans hb.symm
      exact congrArg Prod.snd hab
    · exfalso
      apply hnd.1
      have hg : g ∈ rest.map Prod.fst := List.mem_map_of_mem Prod.fst hb
      rw [← ha]
      exact hg
    · exfalso
      apply hnd.1
      have hg : g ∈ rest.map Prod.fst := List.mem_map_of_mem Prod.fst ha
      rw [← hb]
      exact hg
    · exact ih g a b hnd.2 ha hb

theorem runUploads_ok_mem (client : StorageClient) (now : Nat) (bucketName : String) :
    ∀ (files : FileGroups) (m : List (String × List String)),
      runUploads client now bucketName files = .ok m →
      ∀ e ∈ m, ∃ p ∈ files, e.1 = p.1 ++ "_urls" ∧ p.2.getD [] ≠ [] := by
  intro files
  induction files with
  | nil =>
    intro m h e he
    simp only [runUploads] at h
    cases h
    exact absurd he (List.not_mem_nil e)
  | cons q rest ih =>
    obtain ⟨g, arr⟩ := q
    intro m h e he
    simp only [runUploads] at h
    cases h1 : uploadMultipleFiles client now g arr bucketName with
    | error err => rw [h1] at h; cases h
    | ok urls =>
      rw [h1] at h
      cases h2 : runUploads client now bucketName rest with
      | error err => rw [h2] at h; cases h
      | ok m' =>
        rw [h2] at h
        cases h
        by_cases hlen : urls.length > 0
        · rw [if_pos hlen] at he
          rcases List.mem_cons.mp he with he | he
          · refine ⟨(g, arr), List.mem_cons_self _ _, by rw [he], ?_⟩
            intro h0
            have hempty : uploadMultipleFiles client now g arr bucketName = .ok [] := by
              cases arr with
              | none => rfl
              | some l =>
                simp only [Option.getD] at h0
                subst h0
                rfl
            rw [hempty] at h1
            cases h1
            simp at hlen
          · obtain ⟨p, hp, hrest⟩ := ih m' h2 e he
            exact ⟨p, List.mem_cons_of_mem _ hp, hrest⟩
        · rw [if_neg hlen] at he
          obtain ⟨p, hp, hrest⟩ := ih m' h2 e he
          exact ⟨p, List.mem_cons_of_mem _ hp, hrest⟩

end MailApi

namespace MailApi

theorem enviarEmailBienvenida_eq (sgSend : EmailMsg → Except String Unit)
    (dest name : Option String) (link : String) :
    enviarEmailBienvenida sgSend dest name link =
      ({ toAddr := dest
         fromAddr := "tu-email-verificado@blockey.tech"
         subject := "Gracias por tu solicitud - Siguientes Pasos en Blockey"
         html := getPlantillaBienvenida name link }, ()) := by
  simp only [enviarEmailBienvenida]
  split <;> rfl

/-! ## Claim theorems -/

/-- C3: the persisted consent boolean (`fondos_licitos`) is `true`
exactly when the submitted value is the string `"on"`; any other value,
including absence, `"off"` and `"true"`, yields `false` — and both row
builders derive the column through this coercion of the looked-up
field. -/
theorem consent_coercion :
    (∀ v, coerceConsent v = true ↔ v = some "on") ∧
    coerceConsent none = false ∧
    coerceConsent (some "off") = false ∧
    coerceConsent (some "true") = false ∧
    coerceConsent (some "on") = true ∧
    (∀ (d : Datos) (u : List (String × List String)),
      (mkEmpresaRow d u).fondos_licitos = coerceConsent (d.lookup "fondos_licitos")) ∧
    (∀ (d : Datos) (u : List (String × List String)),
      (mkKycRow d u).fondos_licitos = coerceConsent (d.lookup "fondos_licitos")) := by
  refine ⟨fun v => ?_, by decide, by decide, by decide, by decide,
    fun d u => rfl, fun d u => rfl⟩
  simp [coerceConsent]

/-- C5: sanitization leaves the length of the filename unchanged, maps
each character inside `[A-Za-z0-9.\-_]` to itself and each character
outside it to an underscore, and is idempotent. -/
theorem filename_sanitization (s : String) :
    sanitizeFileName (sanitizeFileName s) = sanitizeFileName s ∧
    (sanitizeFileName s).data.length = s.data.length ∧
    ∀ i (h1 : i < (sanitizeFileName s).data.length) (h2 : i < s.data.length),
      (sanitizeFileName s).data[i] =
        if isAllowedChar s.data[i] then s.data[i] else '_' := by
  refine ⟨?_, by simp [sanitizeFileName], ?_⟩
  · apply string_ext
    show (s.data.map _).map _ = s.data.map _
    rw [List.map_map]
    apply List.map_congr_left
    intro c _
    by_cases h : isAllowedChar c
    · simp [h]
    · simp only [Function.comp_apply, if_neg h]
      have h2 : isAllowedChar '_' = true := by decide
      simp [h2]
  · intro i h1 h2
    simp [sanitizeFileName]

/-- C5 witness: evaluation at the filename `"Doc Final.pdf"` and at
index `3` (a space, mapped to an underscore). -/
theorem filename_sanitization_w :
    sanitizeFileName (sanitizeFileName "Doc Final.pdf") = sanitizeFileName "Doc Final.pdf" ∧
    (sanitizeFileName "Doc Final.pdf").data.length = ("Doc Final.pdf" : String).data.length ∧
    (sanitizeFileName "Doc Final.pdf").data.get ⟨3, by decide⟩ =
      if isAllowedChar (("Doc Final.pdf" : String).data.get ⟨3, by decide⟩)
      then ("Doc Final.pdf" : String).data.get ⟨3, by decide⟩ else '_' := by
  obtain ⟨ha, hb, hc⟩ := filename_sanitization "Doc Final.pdf"
  exact ⟨ha, hb, hc 3 (by decide) (by decide)⟩

/-- C4: storage keys are injective in the group name, timestamp, index
and sanitized filename; hence two distinct file items of one upload
attempt (different group or different within-group index) get different
keys, and a retried attempt with a different timestamp can never collide
with a previous attempt's key. -/
theorem storage_key_uniqueness (g1 g2 : String) (t1 t2 i1 i2 : Nat) (s1 s2 : String) :
    ((g1, i1) ≠ (g2, i2) →
      mkFilePath g1 t1 i1 (sanitizeFileName s1) ≠ mkFilePath g2 t2 i2 (sanitizeFileName s2)) ∧
    (t1 ≠ t2 →
      mkFilePath g1 t1 i1 (sanitizeFileName s1) ≠ mkFilePath g2 t2 i2 (sanitizeFileName s2)) := by
  constructor
  · intro hne heq
    have h := mkFilePath_inj (sanitizeFileName_no_slash s1) (sanitizeFileName_no_slash s2) heq
    exact hne (by rw [h.1, h.2.2.1])
  · intro hne heq
    exact hne (mkFilePath_inj (sanitizeFileName_no_slash s1)
      (sanitizeFileName_no_slash s2) heq).2.1

/-- C4 witness: two files with the same original name in one group in
the same millisecond get distinct keys (index differs), and a retry one
millisecond later gets a key distinct from the original. -/
theorem storage_key_uniqueness_w :
    mkFilePath "estatuto_social" 33 0 (sanitizeFileName "Doc Final.pdf") ≠
      mkFilePath "estatuto_social" 33 1 (sanitizeFileName "Doc Final.pdf") ∧
    mkFilePath "logo" 33 0 (sanitizeFileName "a.png") ≠
      mkFilePath "logo" 34 0 (sanitizeFileName "a.png") :=
  ⟨(storage_key_uniqueness "estatuto_social" "estatuto_social" 33 33 0 1
      "Doc Final.pdf" "Doc Final.pdf").1 (by decide),
   (storage_key_uniqueness "logo" "logo" 33 34 0 0 "a.png" "a.png").2 (by decide)⟩

/-- C10: for a missing (`null`/`undefined`) or empty file array,
`uploadMultipleFiles` returns the empty URL list and no error, whatever
the storage client would do — so a request with absent file fields is
processed safely without touching storage. -/
theorem missing_file_array_total :
    ∀ (client : StorageClient) (now : Nat) (fieldName bucketName : String),
      uploadMultipleFiles client now fieldName none bucketName = .ok [] ∧
      uploadMultipleFiles client now fieldName (some []) bucketName = .ok [] :=
  fun _ _ _ _ => ⟨rfl, rfl⟩

/-- C7: the processor's entire observable outcome — result payload, rows
inserted, messages attempted — is identical under any two notification
send oracles; in particular a failing send never changes an otherwise
successful submission's response. -/
theorem notification_isolation :
    ∀ (env : Env) (sg1 sg2 : EmailMsg → Except String Unit)
      (datos : Datos) (files : FileGroups),
      procesarRegistroEmpresa env sg1 datos files =
        procesarRegistroEmpresa env sg2 datos files ∧
      procesarSolicitudKyc env sg1 datos files =
        procesarSolicitudKyc env sg2 datos files := by
  intro env sg1 sg2 datos files
  constructor
  · simp only [procesarRegistroEmpresa, enviarEmailBienvenida_eq]
  · simp only [procesarSolicitudKyc, enviarEmailBienvenida_eq]

end MailApi

namespace MailApi

/-- C1: if any file item of the submission fails to upload, the company
processor surfaces a terminal error and the insert is never attempted —
no row reaches the database. -/
theorem atomic_persistence (env : Env) (sgSend : EmailMsg → Except String Unit)
    (datos : Datos) (files : FileGroups)
    (hfail : ∃ p ∈ files, ∃ r ∈ groupUploadResults env.storage env.now empresaBucket p.1
      (p.2.getD []), r.error.isSome) :
    (procesarRegistroEmpresa env sgSend datos files).insertCalls = [] ∧
    ∃ e, (procesarRegistroEmpresa env sgSend datos files).result = .error e := by
  obtain ⟨g, _, herr⟩ := runUploads_error_shape env.storage env.now empresaBucket files hfail
  constructor
  · simp [procesarRegistroEmpresa, herr]
  · exact ⟨⟨"Fallo al subir archivos para: " ++ g⟩, by simp [procesarRegistroEmpresa, herr]⟩

/-- C1 witness: a one-group submission against a storage oracle that
fails with `disk full` inserts nothing and returns an error. -/
theorem atomic_persistence_w :
    (procesarRegistroEmpresa envFail sgOk datos0 files0).insertCalls = [] ∧
    ∃ e, (procesarRegistroEmpresa envFail sgOk datos0 files0).result = .error e :=
  atomic_persistence envFail sgOk datos0 files0 (by decide)

/-- C2: when every upload call of the submission succeeds (returns no
error and a usable path), the row passed to the insert carries exactly
one `{group}_urls` entry per non-empty submitted group, each listing as
many URLs as the group had file items, and no entry for anything else. -/
theorem complete_record (env : Env) (sgSend : EmailMsg → Except String Unit)
    (datos : Datos) (files : FileGroups)
    (hnodup : (files.map Prod.fst).Nodup)
    (hok : ∀ p ∈ files, ∀ r ∈ groupUploadResults env.storage env.now empresaBucket p.1
      (p.2.getD []), r.error = none ∧ r.data.isSome) :
    ∃ fileUrls,
      runUploads env.storage env.now empresaBucket files = .ok fileUrls ∧
      (procesarRegistroEmpresa env sgSend datos files).insertCalls =
        [mkEmpresaRow datos fileUrls] ∧
      (∀ p ∈ files, p.2.getD [] ≠ [] →
        fileUrls.countP (fun e => e.1 == p.1 ++ "_urls") = 1 ∧
        ∃ urls, (p.1 ++ "_urls", urls) ∈ fileUrls ∧ urls.length = (p.2.getD []).length) ∧
      (∀ e ∈ fileUrls, ∃ p ∈ files, e.1 = p.1 ++ "_urls" ∧ p.2.getD [] ≠ []) := by
  have hrun := runUploads_ok env.storage env.now empresaBucket files
    (fun p hp r hr => (hok p hp r hr).1)
  refine ⟨expectedUrlMap env.storage env.now empresaBucket files, hrun, ?_, ?_, ?_⟩
  · simp only [procesarRegistroEmpresa, hrun]
    by_cases hins : (env.insertEmpresa (mkEmpresaRow datos
        (expectedUrlMap env.storage env.now empresaBucket files))).error.isSome <;>
      simp [hins]
  · intro p hp hne
    obtain ⟨g, arr⟩ := p
    cases arr with
    | none => simp at hne
    | some l =>
      simp only [Option.getD_some] at hne ⊢
      have hdata : ∀ r ∈ groupUploadResults env.storage env.now empresaBucket g l,
          r.data.isSome := fun r hr => (hok (g, some l) hp r hr).2
      have hlen : (groupUrls env.storage env.now empresaBucket g l).length = l.length :=
        groupUrls_length _ _ _ _ _ hdata
      have hpos : (groupUrls env.storage env.now empresaBucket g l).length > 0 := by
        rw [hlen]
        exact List.length_pos.mpr hne
      have hmem := expectedUrlMap_mem_of env.storage env.now empresaBucket files g l hp hpos
      constructor
      · apply countP_key_eq_one _ _ (expectedUrlMap_keys_nodup _ _ _ _ hnodup)
        exact List.mem_map_of_mem Prod.fst hmem
      · exact ⟨groupUrls env.storage env.now empresaBucket g l, hmem, hlen⟩
  · intro e he
    exact runUploads_ok_mem env.storage env.now empresaBucket files _ hrun e he

/-- C2 witness: a submission with groups of one and two files, an empty
group and an absent group, against an always-succeeding storage
oracle. -/
theorem complete_record_w :
    ∃ fileUrls,
      runUploads envOk.storage envOk.now empresaBucket files0 = .ok fileUrls ∧
      (procesarRegistroEmpresa envOk sgOk datos0 files0).insertCalls =
        [mkEmpresaRow datos0 fileUrls] ∧
      (∀ p ∈ files0, p.2.getD [] ≠ [] →
        fileUrls.countP (fun e => e.1 == p.1 ++ "_urls") = 1 ∧
        ∃ urls, (p.1 ++ "_urls", urls) ∈ fileUrls ∧ urls.length = (p.2.getD []).length) ∧
      (∀ e ∈ fileUrls, ∃ p ∈ files0, e.1 = p.1 ++ "_urls" ∧ p.2.getD [] ≠ []) :=
  complete_record envOk sgOk datos0 files0 (by decide) (by decide)

/-- C8: a group submitted with no items (absent array or empty array)
yields the empty URL list, contributes no `{group}_urls` key to the URL
mapping, and the rows passed to the insert contain no such field at
all. -/
theorem empty_group_omitted (env : Env) (sgSend : EmailMsg → Except String Unit)
    (datos : Datos) (files : FileGroups) (g : String)
    (hnodup : (files.map Prod.fst).Nodup)
    (hg : (g, none) ∈ files ∨ (g, some []) ∈ files) :
    uploadMultipleFiles env.storage env.now g none empresaBucket = .ok [] ∧
    uploadMultipleFiles env.storage env.now g (some []) empresaBucket = .ok [] ∧
    (∀ m, runUploads env.storage env.now empresaBucket files = .ok m →
      ∀ e ∈ m, e.1 ≠ g ++ "_urls") ∧
    (∀ row ∈ (procesarRegistroEmpresa env sgSend datos files).insertCalls,
      ∀ e ∈ row.fileUrls, e.1 ≠ g ++ "_urls") := by
  have hkey : ∀ m, runUploads env.storage env.now empresaBucket files = .ok m →
      ∀ e ∈ m, e.1 ≠ g ++ "_urls" := by
    intro m hm e he hk
    obtain ⟨p, hp, hpek, hpne⟩ :=
      runUploads_ok_mem env.storage env.now empresaBucket files m hm e he
    have hpg : p.1 = g := string_append_cancel_right (hpek.symm.trans hk)
    have hpmem : (g, p.2) ∈ files := by
      rw [← hpg]
      exact hp
    rcases hg with hgn | hge
    · have hpv : p.2 = none := nodup_fst_eq files g p.2 none hnodup hpmem hgn
      rw [hpv] at hpne
      exact hpne rfl
    · have hpv : p.2 = some [] := nodup_fst_eq files g p.2 (some []) hnodup hpmem hge
      rw [hpv] at hpne
      exact hpne rfl
  refine ⟨rfl, rfl, hkey, ?_⟩
  intro row hrow e he
  cases hr : runUploads env.storage env.now empresaBucket files with
  | error err => simp [procesarRegistroEmpresa, hr] at hrow
  | ok m =>
    have hrowval : row = mkEmpresaRow datos m := by
      simp only [procesarRegistroEmpresa, hr] at hrow
      by_cases hins : (env.insertEmpresa (mkEmpresaRow datos m)).error.isSome <;>
        simp [hins] at hrow <;> exact hrow
    rw [hrowval] at he
    exact hkey m hr e he

/-- C8 witness: the absent group `poder_notarial` and the empty group
`organigrama` of the sample submission leave no `_urls` field in the
inserted row. -/
theorem empty_group_omitted_w :
    uploadMultipleFiles envOk.storage envOk.now "poder_notarial" none empresaBucket = .ok [] ∧
    uploadMultipleFiles envOk.storage envOk.now "poder_notarial" (some []) empresaBucket
      = .ok [] ∧
    (∀ m, runUploads envOk.storage envOk.now empresaBucket files0 = .ok m →
      ∀ e ∈ m, e.1 ≠ "poder_notarial" ++ "_urls") ∧
    (∀ row ∈ (procesarRegistroEmpresa envOk sgOk datos0 files0).insertCalls,
      ∀ e ∈ row.fileUrls, e.1 ≠ "poder_notarial" ++ "_urls") :=
  empty_group_omitted envOk sgOk datos0 files0 "poder_notarial" (by decide)
    (Or.inl (by decide))

/-- C6 counterexample: with a storage oracle failing with `disk full`,
the KYC processor surfaces only its generic catch-all message — the same
for any group name — which mentions neither the failing group
(`documento_identidad`) nor the underlying storage error, refuting the
claim that the surfaced error identifies them in either processor. -/
theorem upload_failure_surfacing_cex :
    (procesarSolicitudKyc envFail sgOk datos0 [("documento_identidad", some [file0])]).result =
      .error ⟨"Ocurrió un error inesperado al procesar la solicitud."⟩ ∧
    (procesarSolicitudKyc envFail sgOk datos0 [("grupo_alternativo", some [file0])]).result =
      (procesarSolicitudKyc envFail sgOk datos0 [("documento_identidad", some [file0])]).result ∧
    ¬ List.IsInfix ("documento_identidad" : String).data
      ("Ocurrió un error inesperado al procesar la solicitud." : String).data ∧
    ¬ List.IsInfix ("disk full" : String).data
      ("Ocurrió un error inesperado al procesar la solicitud." : String).data := by
  refine ⟨by decide, by decide, by decide, by decide⟩

/-- C6 amended: on an upload failure each processor surfaces a single
500; the company processor's message names one failing group (but not
the underlying storage error messages, which are only logged), while the
KYC processor replaces the error with its generic message naming
neither; no rollback of succeeded uploads is attempted (the workflow has
no delete operation). -/
theorem upload_failure_surfacing (env : Env) (sgSend : EmailMsg → Except String Unit)
    (datos : Datos) (files : FileGroups) :
    ((∃ p ∈ files, ∃ r ∈ groupUploadResults env.storage env.now empresaBucket p.1
        (p.2.getD []), r.error.isSome) →
      ∃ g, (∃ p ∈ files, p.1 = g ∧
          ∃ r ∈ groupUploadResults env.storage env.now empresaBucket g (p.2.getD []),
            r.error.isSome) ∧
        (procesarRegistroEmpresa env sgSend datos files).result =
          .error ⟨"Fallo al subir archivos para: " ++ g⟩) ∧
    ((∃ p ∈ files, ∃ r ∈ groupUploadResults env.storage env.now kycBucket p.1
        (p.2.getD []), r.error.isSome) →
      (procesarSolicitudKyc env sgSend datos files).result = .error kycGenericError) := by
  constructor
  · intro hfail
    obtain ⟨g, hgf, herr⟩ := runUploads_error_shape env.storage env.now empresaBucket files hfail
    exact ⟨g, hgf, by simp [procesarRegistroEmpresa, herr]⟩
  · intro hfail
    obtain ⟨g, _, herr⟩ := runUploads_error_shape env.storage env.now kycBucket files hfail
    simp [procesarSolicitudKyc, herr]

/-- C6 amended witness: the failing single-group submission evaluated in
both processors. -/
theorem upload_failure_surfacing_w :
    (∃ g, (∃ p ∈ [(("documento_identidad" : String), some [file0])], p.1 = g ∧
        ∃ r ∈ groupUploadResults envFail.storage envFail.now empresaBucket g
          (p.2.getD []), r.error.isSome) ∧
      (procesarRegistroEmpresa envFail sgOk datos0
          [("documento_identidad", some [file0])]).result =
        .error ⟨"Fallo al subir archivos para: " ++ g⟩) ∧
    (procesarSolicitudKyc envFail sgOk datos0
        [("documento_identidad", some [file0])]).result = .error kycGenericError :=
  ⟨(upload_failure_surfacing envFail sgOk datos0
      [("documento_identidad", some [file0])]).1 (by decide),
   (upload_failure_surfacing envFail sgOk datos0
      [("documento_identidad", some [file0])]).2 (by decide)⟩

/-- C9: each processor on its own — two requests whose text fields agree
on that processor's enumerated whitelist (and may differ arbitrarily
elsewhere, including on the other form's fields or on a field literally
named `{group}_urls`) produce identical runs of that processor, and in
particular identical rows for insertion. -/
theorem whitelist_noninterference (env : Env) (sgSend : EmailMsg → Except String Unit)
    (files : FileGroups) (d1 d2 : Datos) :
    ((∀ k ∈ empresaWhitelist, d1.lookup k = d2.lookup k) →
      procesarRegistroEmpresa env sgSend d1 files =
        procesarRegistroEmpresa env sgSend d2 files) ∧
    ((∀ k ∈ kycWhitelist, d1.lookup k = d2.lookup k) →
      procesarSolicitudKyc env sgSend d1 files =
        procesarSolicitudKyc env sgSend d2 files) := by
  constructor
  · intro hE
    have e1 := hE "nombre_empresa" (by simp [empresaWhitelist])
    have e2 := hE "cuit_empresa" (by simp [empresaWhitelist])
    have e3 := hE "direccion_sede" (by simp [empresaWhitelist])
    have e4 := hE "email_empresa" (by simp [empresaWhitelist])
    have e5 := hE "telefono_empresa" (by simp [empresaWhitelist])
    have e6 := hE "sitio_web" (by simp [empresaWhitelist])
    have e7 := hE "fondos_licitos" (by simp [empresaWhitelist])
    simp only [procesarRegistroEmpresa, mkEmpresaRow, e1, e2, e3, e4, e5, e6, e7]
  · intro hK
    have k1 := hK "nombre" (by simp [kycWhitelist])
    have k2 := hK "apellido" (by simp [kycWhitelist])
    have k3 := hK "numero_documento" (by simp [kycWhitelist])
    have k4 := hK "fecha_nacimiento" (by simp [kycWhitelist])
    have k5 := hK "nacionalidad" (by simp [kycWhitelist])
    have k6 := hK "direccion" (by simp [kycWhitelist])
    have k7 := hK "email" (by simp [kycWhitelist])
    have k8 := hK "telefono" (by simp [kycWhitelist])
    have k9 := hK "fuente_ingresos" (by simp [kycWhitelist])
    have k10 := hK "limite_operaciones" (by simp [kycWhitelist])
    have k11 := hK "justificacion_servicios" (by simp [kycWhitelist])
    have k12 := hK "fondos_licitos" (by simp [kycWhitelist])
    have k13 := hK "pep_status" (by simp [kycWhitelist])
    simp only [procesarSolicitudKyc, mkKycRow, k1, k2, k3, k4, k5, k6, k7, k8, k9,
      k10, k11, k12, k13]

/-- C9 witness: the company processor run is unchanged by altering the
KYC-only fields `nombre`/`apellido` and injecting `estatuto_social_urls`
(all outside its whitelist), and the KYC processor run is unchanged by
altering the company-only fields `nombre_empresa`/`email_empresa` and
injecting `campo_extra` (all outside its whitelist). -/
theorem whitelist_noninterference_w :
    procesarRegistroEmpresa envOk sgOk datos0 files0 =
      procesarRegistroEmpresa envOk sgOk datos2 files0 ∧
    procesarSolicitudKyc envOk sgOk datos0 files0 =
      procesarSolicitudKyc envOk sgOk datos3 files0 :=
  ⟨(whitelist_noninterference envOk sgOk files0 datos0 datos2).1 (by decide),
   (whitelist_noninterference envOk sgOk files0 datos0 datos3).2 (by decide)⟩

end MailApi
